import Mathlib

/-
Verification development for the Aphrodite-Bot health-coaching backend.

The definitions below are a shallow embedding of the Go sources:
  * models (assessment.go / chat.go): the data records,
  * repository/assessment_repository.go: the in-memory store
    (maps become association lists, time.Time becomes Nat,
     the per-call mutex is irrelevant in this sequential model),
  * services/assessment_service.go (the English-option revision whose
    line numbers the claims cite): StartOrContinueAssessment,
    SubmitAnswer, processSpecialAnswers, GetAssessmentResult,
  * services/scheduler_service.go: ScheduleAIResponses, with the helper
    bodies (containsTag, getRecentHistory, sortAIsByScore) taken from
    their implemented versions in the same package (the named file keeps
    them as placeholder stubs).

External effects are modelled as explicit inputs:
  * every call to time.Now() inside one operation becomes the parameter
    now : Nat (updatedAt ordering uses plain Nat comparison, and
    time.Time.After is strict greater-than),
  * the LLM tag-classification call (analyzeMessageWithAI) is an oracle:
    its outcome for the one invocation is the parameter
    classifyResult : Except String (List String),
  * Go map iteration order is unspecified and runtime-randomised; the
    order in which sortAIsByScore receives the aiScores entries is the
    parameter mapIterOrder, and theorems that depend on it carry the
    hypothesis that it permutes its input (which is exactly what a Go
    map iteration does),
  * Go errors become Option String / Except String carrying the
    user-visible message text.
-/

namespace Aphrodite

/-! ## Data model (models/assessment.go, models/chat.go) -/

/-- models.ChatMessage; only the fields the scheduler reads. -/
structure ChatMessage where
  role : String
  name : String
  content : String
deriving Repr, DecidableEq

/-- config.LLMCharacter; only the fields the scheduler reads. -/
structure LLMCharacter where
  id : String
  name : String
  tags : List String
deriving Repr, DecidableEq

/-- models.AssessmentQuestion. -/
structure AssessmentQuestion where
  id : String
  order : Nat
  text : String
  questionType : String
  options : List String
  isRequired : Bool
deriving Repr, DecidableEq

/-- models.UserAnswer. -/
structure UserAnswer where
  questionID : String
  answer : List String
deriving Repr, DecidableEq

/-- models.UserAssessment; statuses are the literal strings
"in_progress", "completed", "cancelled"; timestamps are Nat. -/
structure UserAssessment where
  id : Nat
  userID : String
  answers : List UserAnswer
  status : String
  currentQuestionID : String
  startedAt : Nat
  completedAt : Option Nat
  createdAt : Nat
  updatedAt : Nat
deriving Repr, DecidableEq

/-! ## In-memory assessment repository (repository/assessment_repository.go) -/

/-- The repository state: userAssessments (map id to record),
userIndex (map userID to list of assessment ids), nextAssessmentID. -/
structure RepoState where
  userAssessments : List (Nat × UserAssessment)
  userIndex : List (String × List Nat)
  nextAssessmentID : Nat
deriving Repr, DecidableEq

/-- Go map read on userAssessments. -/
def alistGet (m : List (Nat × UserAssessment)) (k : Nat) : Option UserAssessment :=
  (m.find? (fun e => e.1 == k)).map (fun e => e.2)

/-- Go map write on userAssessments (overwrite the entry with this key,
else add one; a Go map never holds a key twice, so reading the first
occurrence and overwriting the first occurrence model it faithfully). -/
def alistPut : List (Nat × UserAssessment) → Nat → UserAssessment → List (Nat × UserAssessment)
  | [], k, v => [(k, v)]
  | e :: rest, k, v => if e.1 == k then (k, v) :: rest else e :: alistPut rest k v

/-- Go map read on userIndex; missing key reads as absent. -/
def indexGet (m : List (String × List Nat)) (k : String) : Option (List Nat) :=
  (m.find? (fun e => e.1 == k)).map (fun e => e.2)

/-- Go map write on userIndex. -/
def indexPut : List (String × List Nat) → String → List Nat → List (String × List Nat)
  | [], k, v => [(k, v)]
  | e :: rest, k, v => if e.1 == k then (k, v) :: rest else e :: indexPut rest k v

/-- CreateUserAssessment: reject empty userID; assign nextAssessmentID;
set createdAt/updatedAt to now; default status to in_progress; default
zero startedAt to now; store the record and index it under the user. -/
def createUserAssessment (st : RepoState) (a : UserAssessment) (now : Nat) :
    Except String (UserAssessment × RepoState) :=
  if a.userID == "" then .error "user ID cannot be empty"
  else
    let a1 : UserAssessment :=
      { a with
        id := st.nextAssessmentID
        createdAt := now
        updatedAt := now
        status := if a.status == "" then "in_progress" else a.status
        startedAt := if a.startedAt == 0 then now else a.startedAt }
    .ok (a1,
      { st with
        userAssessments := alistPut st.userAssessments a1.id a1
        userIndex :=
          indexPut st.userIndex a.userID ((indexGet st.userIndex a.userID).getD [] ++ [a1.id])
        nextAssessmentID := st.nextAssessmentID + 1 })

/-- One step of the GetUserAssessmentByUserID scan: keep the candidate
when it passes the status filter and is strictly later than the best
updatedAt seen so far (time.Time.After), starting from the zero time. -/
def pickStep (m : List (Nat × UserAssessment)) (targetStatus : String)
    (acc : Option UserAssessment × Nat) (assessmentID : Nat) :
    Option UserAssessment × Nat :=
  match alistGet m assessmentID with
  | none => acc
  | some a =>
    if targetStatus != "" then
      if a.status == targetStatus then
        if acc.1.isNone || acc.2 < a.updatedAt then (some a, a.updatedAt) else acc
      else acc
    else
      if acc.1.isNone || acc.2 < a.updatedAt then (some a, a.updatedAt) else acc

/-- GetUserAssessmentByUserID: walk the ids indexed for the user from
last to first and return the most-recently-updated record matching the
status filter ("" means no filter); not-found is none, never an error. -/
def getUserAssessmentByUserID (st : RepoState) (userID : String) (statusFilter : String) :
    Option UserAssessment :=
  match indexGet st.userIndex userID with
  | none => none
  | some assessmentIDs =>
    if assessmentIDs.isEmpty then none
    else (assessmentIDs.reverse.foldl (pickStep st.userAssessments statusFilter) (none, 0)).1

/-- UpdateUserAssessment: fail if the id is unknown; otherwise preserve
userID, startedAt, createdAt from the stored copy, refresh updatedAt,
and store the result. The returned record is the record now held by the
pointer of the caller. -/
def updateUserAssessment (st : RepoState) (a : UserAssessment) (now : Nat) :
    Except String (UserAssessment × RepoState) :=
  match alistGet st.userAssessments a.id with
  | none => .error "update failed: assessment record not found"
  | some orig =>
    let a1 : UserAssessment :=
      { a with
        userID := orig.userID
        startedAt := orig.startedAt
        createdAt := orig.createdAt
        updatedAt := now }
    .ok (a1, { st with userAssessments := alistPut st.userAssessments a1.id a1 })

/-! ## Question catalog (getDefaultAssessmentQuestions) -/

/-- The first catalog question (welcome). -/
def qWelcomeDef : AssessmentQuestion :=
  { id := "q_welcome", order := 0,
    text := "Hello! To provide you with more personalized services, we need to understand some of your basic information. The whole process will take about 5-10 minutes, and your data will be kept strictly confidential. Are you ready to start?",
    questionType := "confirmation",
    options := ["Yes, I\u0027m ready", "No, next time"], isRequired := true }

/-- The final catalog question (consent). -/
def qPrivacyConsentDef : AssessmentQuestion :=
  { id := "q_privacy_consent", order := 10,
    text := "We reiterate that all your answers will be kept strictly confidential and used solely to provide you with personalized health advice and plans. Do you agree to our processing of this information?",
    questionType := "confirmation",
    options := ["I agree and continue", "I do not agree"], isRequired := true }

/-- getDefaultAssessmentQuestions: the hardcoded English-option catalog,
listed in its source order, which is already ascending by order
(the sort-by-order in the constructor leaves this list unchanged). -/
def getDefaultAssessmentQuestions : List AssessmentQuestion :=
  [ qWelcomeDef,
    { id := "q_age_group", order := 1,
      text := "What is your age group?",
      questionType := "single_choice",
      options := ["18-24 years", "25-34 years", "35-44 years", "45-54 years", "55 years and above"],
      isRequired := true },
    { id := "q_chronic_diseases", order := 2,
      text := "Do you have any chronic diseases diagnosed by a doctor (e.g., hypertension, diabetes, heart disease)? If yes, please briefly explain. If no, you can write \u0027None\u0027.",
      questionType := "open_text", options := [], isRequired := true },
    { id := "q_medications", order := 3,
      text := "Are you currently taking any long-term prescription medications? If yes, please briefly state the drug name or type. If no, you can write \u0027None\u0027.",
      questionType := "open_text", options := [], isRequired := true },
    { id := "q_exercise_habits", order := 4,
      text := "How often do you currently exercise?",
      questionType := "single_choice",
      options := ["Almost never", "1-2 times a week", "3-4 times a week", "5 times a week or more"],
      isRequired := true },
    { id := "q_sleep_quality", order := 5,
      text := "How is your usual sleep quality?",
      questionType := "single_choice",
      options := ["Very good, can ensure 7-8 hours and feel energetic", "Average, occasionally insufficient sleep or poor quality", "Poor, often suffer from insomnia or poor sleep quality"],
      isRequired := true },
    { id := "q_stress_level", order := 6,
      text := "How would you rate your current overall stress level? (1 for extremely low, 5 for extremely high)",
      questionType := "single_choice",
      options := ["1 (Extremely Low)", "2 (Low)", "3 (Moderate)", "4 (High)", "5 (Extremely High)"],
      isRequired := true },
    { id := "q_sex_frequency_satisfaction", order := 7,
      text := "Are you satisfied with your current frequency of sexual activity?",
      questionType := "single_choice",
      options := ["Very satisfied", "Somewhat satisfied", "Neutral", "Somewhat dissatisfied", "Very dissatisfied", "Currently no sexual activity"],
      isRequired := true },
    { id := "q_sex_ability_concerns", order := 8,
      text := "In terms of sexual ability (e.g., erection, stamina, libido), what are your main concerns or worries at present? (Multiple choice, select \u0027No significant concerns\u0027 if none)",
      questionType := "multi_choice",
      options := ["Difficulty achieving or maintaining an erection", "Premature ejaculation or insufficient stamina", "Low libido", "Difficulty reaching orgasm", "Pain during intercourse", "Anxiety about performance", "Lack of sexual knowledge or skills", "No significant concerns"],
      isRequired := true },
    { id := "q_main_goals", order := 9,
      text := "What are the core goals you most hope to achieve with our AI partners? (Multiple choice)",
      questionType := "multi_choice",
      options := ["Gain scientific sexual health knowledge", "Improve sexual ability (e.g., stamina, hardness)", "Improve sexual communication with partner", "Adjust unhealthy sexual habits", "Relieve sexual anxiety or stress", "Develop a personalized exercise plan", "Understand and try healthy sexual behavior patterns"],
      isRequired := true },
    qPrivacyConsentDef ]

/-- The ordered question list of the service (NewAssessmentService sorts the
defaults by order; see questions_sorted below for why that is the
identity here). -/
def questions : List AssessmentQuestion := getDefaultAssessmentQuestions

/-- The questionsByID lookup, built from the same list. -/
def findQuestionByID (qid : String) : Option AssessmentQuestion :=
  questions.find? (fun q => q.id == qid)

/-- The id of the first catalog question, s.questions[0].ID. -/
def firstQuestionID : String :=
  match questions with
  | [] => ""
  | q :: _ => q.id

/-! ## Assessment service (assessment_service.go) -/

/-- strings.TrimSpace: drop whitespace from both ends (modelled on the
character list so that it evaluates inside the kernel). -/
def trimSpace (s : String) : String :=
  String.mk (((s.toList.dropWhile Char.isWhitespace).reverse.dropWhile Char.isWhitespace).reverse)

/-- The zero UserAssessment underlying a fresh Go struct literal. -/
def emptyAssessment : UserAssessment :=
  { id := 0, userID := "", answers := [], status := "", currentQuestionID := ""
    startedAt := 0, completedAt := none, createdAt := 0, updatedAt := 0 }

/-- A service result: (question to show, assessment, user-visible error). -/
def SvcResult : Type :=
  Option AssessmentQuestion × Option UserAssessment × Option String

/-- Tail of StartOrContinueAssessment: set currentQuestionID from the
determined next question (or clear it on completion), persist through
the store, and shape the return value. -/
def socFinish (st : RepoState) (a : UserAssessment)
    (nextQ : Option AssessmentQuestion) (now : Nat) : SvcResult × RepoState :=
  let a1 : UserAssessment :=
    if a.status == "completed" then { a with currentQuestionID := "" }
    else
      match nextQ with
      | some q => { a with currentQuestionID := q.id }
      | none => a
  match updateUserAssessment st a1 now with
  | .error e => ((nextQ, some a1, some ("failed to update assessment state (StartOrContinue): " ++ e)), st)
  | .ok (ua, st1) =>
    if ua.status == "completed" || ua.status == "cancelled" then
      ((none, some ua, none), st1)
    else
      match nextQ with
      | none => ((none, some ua, some "internal error: unable to determine next assessment question"), st1)
      | some q => ((some q, some ua, none), st1)

/-- Body of StartOrContinueAssessment once an in_progress assessment is
in hand (freshly created or fetched). -/
def socMain (st : RepoState) (a0 : UserAssessment) (now : Nat) : SvcResult × RepoState :=
  if a0.status == "completed" || a0.status == "cancelled" then
    ((none, some a0, none), st)
  else if a0.currentQuestionID == "" then
    match questions with
    | [] =>
      let a1 : UserAssessment := { a0 with status := "completed" }
      let st1 :=
        match updateUserAssessment st a1 now with
        | .ok (_, s) => s
        | .error _ => st
      ((none, some a1, some "internal system error: assessment questionnaire is not configured"), st1)
    | q0 :: _ => socFinish st a0 (some q0) now
  else
    match findQuestionByID a0.currentQuestionID with
    | none =>
      match questions with
      | [] => ((none, some a0, some "internal system error: assessment questionnaire is not configured"), st)
      | q0 :: _ => socFinish st a0 (some q0) now
    | some currentQFromDef =>
      if a0.answers.any (fun ans => ans.questionID == a0.currentQuestionID) then
        match questions.findIdx? (fun q => q.id == a0.currentQuestionID) with
        | none => ((none, some a0, some "internal system error processing assessment"), st)
        | some i =>
          if h : i + 1 < questions.length then
            socFinish st a0 (some (questions.get ⟨i + 1, h⟩)) now
          else
            socFinish st { a0 with status := "completed", completedAt := some now } none now
      else socFinish st a0 (some currentQFromDef) now

/-- StartOrContinueAssessment: fetch the in_progress assessment for the
user, creating a fresh one when none exists, then run the question-flow
body. -/
def startOrContinueAssessment (st : RepoState) (userID : String) (now : Nat) :
    SvcResult × RepoState :=
  match getUserAssessmentByUserID st userID "in_progress" with
  | none =>
    let fresh : UserAssessment :=
      { emptyAssessment with userID := userID, status := "in_progress", startedAt := now, answers := [] }
    match createUserAssessment st fresh now with
    | .error e => ((none, none, some ("failed to create new assessment for userID " ++ userID ++ ": " ++ e)), st)
    | .ok (a0, st0) => socMain st0 a0 now
  | some a0 => socMain st a0 now

/-- processSpecialAnswers: declining the welcome question or refusing
privacy consent cancels the assessment, clears currentQuestionID, and
yields the fixed user-facing message. -/
def processSpecialAnswers (a : UserAssessment) (q : AssessmentQuestion)
    (answerValues : List String) : Option (UserAssessment × String) :=
  if q.id == "q_welcome" && answerValues.contains "No, next time" then
    some ({ a with status := "cancelled", currentQuestionID := "" },
      "Okay, we respect your choice. You can restart the assessment anytime if you change your mind.")
  else if q.id == "q_privacy_consent" && answerValues.contains "I do not agree" then
    some ({ a with status := "cancelled", currentQuestionID := "" },
      "We take your privacy very seriously. If you do not agree to the processing of your information, we cannot proceed with personalized services. The assessment has been discontinued.")
  else none

/-- The answer upsert loop of SubmitAnswer: overwrite the first entry
with this questionID, else append a new entry. -/
def upsertAnswerList : List UserAnswer → String → List String → List UserAnswer
  | [], qid, vs => [{ questionID := qid, answer := vs }]
  | ans :: rest, qid, vs =>
    if ans.questionID == qid then { ans with answer := vs } :: rest
    else ans :: upsertAnswerList rest qid vs

/-- SubmitAnswer after positioning has been validated: resolve the
question definition, enforce the required-answer rule, apply special
answers (persisting a cancellation), otherwise upsert the answer,
advance or complete, and persist. -/
def submitCore (st : RepoState) (a1 : UserAssessment) (questionID : String)
    (answerValues : List String) (now : Nat) : SvcResult × RepoState :=
  match findQuestionByID questionID with
  | none =>
    ((none, some a1, some ("invalid question ID \u0027" ++ questionID ++ "\u0027 submitted")), st)
  | some questionDef =>
    if questionDef.isRequired &&
        (answerValues.isEmpty ||
          (answerValues.length == 1 && trimSpace (answerValues.headD "") == "")) then
      ((some questionDef, some a1, some "this question is required. Please provide an answer"), st)
    else
      match processSpecialAnswers a1 questionDef answerValues with
      | some (a2, msg) =>
        match updateUserAssessment st a2 now with
        | .ok (ua, st1) => ((none, some ua, some msg), st1)
        | .error _ => ((none, some a2, some msg), st)
      | none =>
        let a2 : UserAssessment :=
          { a1 with answers := upsertAnswerList a1.answers questionID answerValues }
        match questions.findIdx? (fun q => q.id == questionID) with
        | none => ((none, some a2, some "internal system error processing question order"), st)
        | some i =>
          if h : i + 1 < questions.length then
            let nextQ := questions.get ⟨i + 1, h⟩
            let a3 : UserAssessment := { a2 with currentQuestionID := nextQ.id }
            match updateUserAssessment st a3 now with
            | .error e =>
              ((some questionDef, some a3, some ("failed to update assessment after submitting answer: " ++ e)), st)
            | .ok (ua, st1) =>
              if ua.status == "completed" || ua.status == "cancelled" then
                ((none, some ua, none), st1)
              else ((some nextQ, some ua, none), st1)
          else
            let a3 : UserAssessment :=
              { a2 with status := "completed", completedAt := some now, currentQuestionID := "" }
            match updateUserAssessment st a3 now with
            | .error e =>
              ((some questionDef, some a3, some ("failed to update assessment after submitting answer: " ++ e)), st)
            | .ok (ua, st1) =>
              if ua.status == "completed" || ua.status == "cancelled" then
                ((none, some ua, none), st1)
              else
                ((none, some ua, some "internal error: failed to determine next question"), st1)

/-- SubmitAnswer: fetch the in_progress assessment, validate that the
submitted questionID is the one currently expected (allowing the first
catalog question when currentQuestionID is still empty), then hand over
to submitCore. -/
def submitAnswer (st : RepoState) (userID questionID : String)
    (answerValues : List String) (now : Nat) : SvcResult × RepoState :=
  match getUserAssessmentByUserID st userID "in_progress" with
  | none =>
    ((none, none, some "you do not have an assessment in progress. Would you like to start one?"), st)
  | some a0 =>
    if a0.currentQuestionID == "" && questionID == firstQuestionID then
      submitCore st { a0 with currentQuestionID := questionID } questionID answerValues now
    else if a0.currentQuestionID != questionID then
      match findQuestionByID a0.currentQuestionID with
      | none =>
        ((none, some a0, some ("system error: current assessment question (ID: " ++ a0.currentQuestionID ++ ") not found. Please try starting the assessment again or contact support")), st)
      | some currentQFromDef =>
        ((some currentQFromDef, some a0,
          some ("you seem to be answering a previous question. The current question is: \u0027" ++ currentQFromDef.text ++ "\u0027")), st)
    else submitCore st a0 questionID answerValues now

/-- GetAssessmentResult: reject an empty userID, otherwise return the
most-recently-updated completed assessment for the user, with
not-found as (none, none) rather than an error. -/
def getAssessmentResult (st : RepoState) (userID : String) :
    Option UserAssessment × Option String :=
  if userID == "" then (none, some "userID cannot be empty")
  else
    match getUserAssessmentByUserID st userID "completed" with
    | none => (none, none)
    | some a => (some a, none)

/-! ## Scheduler (scheduler_service.go) -/

/-- The distinguished assessment persona id. -/
def profileAssessmentAgentID : String := "hs_profile_assessment_agent"

/-- The router persona id, excluded from scoring. -/
def schedulerAIID : String := "ai0"

/-- The configured fallback persona id. -/
def fallbackAgentID : String := "hs_empathy_agent"

/-- strings.ToLower on the character sequence. -/
def toLowerList (s : String) : List Char := s.toList.map Char.toLower

/-- strings.Contains: sub occurs contiguously inside l. -/
def listContainsSub (l sub : List Char) : Bool :=
  l.tails.any (fun t => sub.isPrefixOf t)

/-- containsTag (progress_service_test.go): linear membership scan. -/
def containsTag (tags : List String) (tag : String) : Bool :=
  tags.any (fun t => t == tag)

/-- getRecentHistory: the last `limit` history entries. -/
def getRecentHistory (history : List ChatMessage) (limit : Nat) : List ChatMessage :=
  if history.length ≤ limit then history else history.drop (history.length - limit)

/-- The tag-matching part of the scoring loop: +3 per matched tag that
the persona carries. -/
def tagScore (aiTags : List String) (matchedTags : List String) : Nat :=
  matchedTags.foldl (fun s tag => if containsTag aiTags tag then s + 3 else s) 0

/-- The direct-mention part of the scoring loop: +5 when the lowercased
name (bare or with a leading "@") occurs in the lowercased message. -/
def mentionBonus (ai : LLMCharacter) (messageLower : List Char) : Nat :=
  if listContainsSub messageLower (toLowerList ai.name) ||
      listContainsSub messageLower ('@' :: toLowerList ai.name) then 5 else 0

/-- The recency part of the scoring loop: +1 (once) when one of the last
3 history entries carries the name of this persona and non-empty content. -/
def recentBonus (ai : LLMCharacter) (history : List ChatMessage) : Nat :=
  if (getRecentHistory history 3).any (fun hist => hist.name == ai.name && hist.content != "") then 1
  else 0

/-- The score ScheduleAIResponses computes for one persona. -/
def scoreAI (ai : LLMCharacter) (message : String) (history : List ChatMessage)
    (matchedTags : List String) : Nat :=
  tagScore ai.tags matchedTags + mentionBonus ai (toLowerList message) + recentBonus ai history

/-- Go map write on the aiScores map, keyed by persona id. -/
def scoreUpsert : List (String × Nat) → String → Nat → List (String × Nat)
  | [], k, v => [(k, v)]
  | e :: rest, k, v => if e.1 == k then (k, v) :: rest else e :: scoreUpsert rest k v

/-- One iteration of the scoring loop: skip the router persona, record
a positive score in the aiScores map, drop zero scores. -/
def scoreStep (message : String) (history : List ChatMessage) (matchedTags : List String)
    (acc : List (String × Nat)) (ai : LLMCharacter) : List (String × Nat) :=
  if ai.id == schedulerAIID then acc
  else
    let score := scoreAI ai message history matchedTags
    if score > 0 then scoreUpsert acc ai.id score else acc

/-- The aiScores map built by the scoring loop, represented in insertion
order: every non-router persona with positive score, with its score. -/
def aiScoresList (availableAIs : List LLMCharacter) (message : String)
    (history : List ChatMessage) (matchedTags : List String) : List (String × Nat) :=
  availableAIs.foldl (scoreStep message history matchedTags) []

/-- sortAIsByScore (progress_service_test.go): sort the received map
entries by score descending and keep the ids. The entries arrive in Go
map iteration order; the caller supplies that order. -/
def sortAIsByScore (pairs : List (String × Nat)) : List String :=
  (List.insertionSort (fun p q : String × Nat => q.2 ≤ p.2) pairs).map (fun p => p.1)

/-- The matchedTags value the scoring proceeds with: the classifier
result on success, and the empty list when the call failed (degraded,
not fatal). -/
def matchedTagsOf (classifyResult : Except String (List String)) : List String :=
  match classifyResult with
  | .ok ts => ts
  | .error _ => []

/-- Steps 1-6 of ScheduleAIResponses after the assessment override:
score, sort (through the map iteration order), select, fall back. -/
def scheduleByScore (message : String) (history : List ChatMessage)
    (availableAIs : List LLMCharacter) (classifyResult : Except String (List String))
    (mapIterOrder : List (String × Nat) → List (String × Nat)) :
    List String × Option String :=
  let matchedTags := matchedTagsOf classifyResult
  let aiScores := aiScoresList availableAIs message history matchedTags
  let sortedAIs := sortAIsByScore (mapIterOrder aiScores)
  if sortedAIs.isEmpty then
    if availableAIs.any (fun ai => ai.id == fallbackAgentID) then
      ([fallbackAgentID], none)
    else ([], some "抱歉，暂时无法处理您的请求")
  else
    let maxResponders := 1
    (sortedAIs.take maxResponders, none)

/-- ScheduleAIResponses: the assessment override (a user with an
in_progress assessment gets exactly the assessment persona, or a loud
error when that persona is unavailable), then tag scoring. -/
def scheduleAIResponses (st : RepoState) (userID message : String)
    (history : List ChatMessage) (availableAIs : List LLMCharacter)
    (classifyResult : Except String (List String))
    (mapIterOrder : List (String × Nat) → List (String × Nat)) :
    List String × Option String :=
  if userID != "" then
    match getUserAssessmentByUserID st userID "in_progress" with
    | some _ =>
      if availableAIs.any (fun ai => ai.id == profileAssessmentAgentID) then
        ([profileAssessmentAgentID], none)
      else ([], some "评估专员当前不可用，请稍后再试")
    | none => scheduleByScore message history availableAIs classifyResult mapIterOrder
  else scheduleByScore message history availableAIs classifyResult mapIterOrder

/-- The catalog is strictly ascending by order, so the
sort-by-order leaves it unchanged. -/
theorem questions_sorted : questions.Pairwise (fun a b => a.order < b.order) := by
  decide

/-! ## Store invariants and helper lemmas -/

/-- The store keeps each record under its own id (CreateUserAssessment
and UpdateUserAssessment both store under the record id). -/
def repoWF (st : RepoState) : Prop :=
  ∀ e ∈ st.userAssessments, e.2.id = e.1

instance (st : RepoState) : Decidable (repoWF st) := by
  unfold repoWF; infer_instance

/-- The records the store indexes for a user. -/
def userAssessmentsOf (st : RepoState) (userID : String) : List UserAssessment :=
  ((indexGet st.userIndex userID).getD []).filterMap (alistGet st.userAssessments)

theorem alistGet_put_same (m : List (Nat × UserAssessment)) (k : Nat) (v : UserAssessment) :
    alistGet (alistPut m k v) k = some v := by
  induction m with
  | nil => simp [alistGet, alistPut, List.find?]
  | cons e rest ih =>
    by_cases he : e.1 = k
    · simp [alistGet, alistPut, he, List.find?]
    · have he2 : (e.1 == k) = false := by simp [he]
      simp only [alistPut, he2, Bool.false_eq_true, if_false]
      simpa [alistGet, List.find?, he2] using ih

theorem alistGet_put_other (m : List (Nat × UserAssessment)) (k k2 : Nat) (v : UserAssessment)
    (hne : k2 ≠ k) : alistGet (alistPut m k v) k2 = alistGet m k2 := by
  have hkk2 : (k == k2) = false := by simp [Ne.symm hne]
  induction m with
  | nil => simp [alistGet, alistPut, List.find?, hkk2]
  | cons e rest ih =>
    by_cases he : e.1 = k
    · have he2 : (e.1 == k2) = false := by simp [he, Ne.symm hne]
      simp [alistGet, alistPut, he, List.find?, hkk2, he2]
    · have he2 : (e.1 == k) = false := by simp [he]
      by_cases he3 : e.1 = k2
      · have he4 : (e.1 == k2) = true := by simp [he3]
        simp only [alistPut, he2, Bool.false_eq_true, if_false]
        simp [alistGet, List.find?, he4]
      · have he4 : (e.1 == k2) = false := by simp [he3]
        simp only [alistPut, he2, Bool.false_eq_true, if_false]
        simpa [alistGet, List.find?, he4] using ih

/-- Membership form of a successful map read. -/
theorem alistGet_mem (m : List (Nat × UserAssessment)) (k : Nat) (a : UserAssessment)
    (h : alistGet m k = some a) : (k, a) ∈ m := by
  unfold alistGet at h
  cases hf : m.find? (fun e => e.1 == k) with
  | none => simp [hf] at h
  | some e =>
    simp only [hf, Option.map_some] at h
    have h1 := List.find?_some hf
    have h2 : e ∈ m := List.mem_of_find?_eq_some hf
    have h3 : e = (k, a) := by
      obtain ⟨k2, v⟩ := e
      simp only [beq_iff_eq] at h1
      simp_all
    exact h3 ▸ h2

/-! ## Scheduler claims -/

/-- A store holding one in_progress assessment for user u1. -/
def wAssessIP : UserAssessment :=
  { id := 1, userID := "u1", answers := [], status := "in_progress",
    currentQuestionID := "q_welcome", startedAt := 5, completedAt := none,
    createdAt := 5, updatedAt := 5 }

/-- Witness store with an active assessment for u1. -/
def wStIP : RepoState :=
  { userAssessments := [(1, wAssessIP)], userIndex := [("u1", [1])], nextAssessmentID := 2 }

/-- The empty store. -/
def wStEmpty : RepoState :=
  { userAssessments := [], userIndex := [], nextAssessmentID := 1 }

/-- C1: with a non-empty userID whose store has an in_progress
assessment, ScheduleAIResponses returns exactly the assessment persona
id with no error when that persona is available, and an error with no
persona ids when it is not; the result is the same for every classifier
outcome and every map iteration order, so the tag-classification and
scoring logic never influences it. -/
theorem C1_assessment_override (st : RepoState) (userID message : String)
    (history : List ChatMessage) (availableAIs : List LLMCharacter)
    (classifyResult : Except String (List String))
    (mapIterOrder : List (String × Nat) → List (String × Nat))
    (a : UserAssessment)
    (huser : userID ≠ "")
    (hactive : getUserAssessmentByUserID st userID "in_progress" = some a) :
    scheduleAIResponses st userID message history availableAIs classifyResult mapIterOrder =
      if availableAIs.any (fun ai => ai.id == profileAssessmentAgentID) then
        ([profileAssessmentAgentID], none)
      else ([], some "评估专员当前不可用，请稍后再试") := by
  have h1 : (userID != "") = true := by simpa using huser
  unfold scheduleAIResponses
  rw [if_pos h1, hactive]

/-- Witness for C1 at a concrete store, persona set, classifier outcome
and iteration order. -/
theorem C1_assessment_override_witness :
    scheduleAIResponses wStIP "u1" "hi" []
        [{ id := "hs_profile_assessment_agent", name := "Assessor", tags := [] }]
        (Except.ok ["tag"]) id = ([profileAssessmentAgentID], none) := by
  have h := C1_assessment_override wStIP "u1" "hi" []
    [{ id := "hs_profile_assessment_agent", name := "Assessor", tags := [] }]
    (Except.ok ["tag"]) id wAssessIP (by decide) (by decide)
  simpa using h

/-- The scoring loop leaves the aiScores map empty when every non-router
persona scores zero. -/
theorem aiScoresList_eq_nil (availableAIs : List LLMCharacter) (message : String)
    (history : List ChatMessage) (matchedTags : List String)
    (hzero : ∀ ai ∈ availableAIs, ai.id ≠ schedulerAIID →
      scoreAI ai message history matchedTags = 0) :
    aiScoresList availableAIs message history matchedTags = [] := by
  have key : ∀ (l : List LLMCharacter),
      (∀ ai ∈ l, ai.id ≠ schedulerAIID → scoreAI ai message history matchedTags = 0) →
      ∀ acc, l.foldl (scoreStep message history matchedTags) acc = acc := by
    intro l
    induction l with
    | nil => intro _ acc; rfl
    | cons a rest ih =>
      intro hl acc
      simp only [List.foldl_cons]
      have hrest := fun ai hm => hl ai (List.mem_cons_of_mem _ hm)
      by_cases ha : a.id = schedulerAIID
      · have hb : (a.id == schedulerAIID) = true := by simp [ha]
        simp only [scoreStep, hb, if_true]
        exact ih hrest acc
      · have hb : (a.id == schedulerAIID) = false := by simp [ha]
        have hz := hl a (List.mem_cons_self _ _) ha
        simp only [scoreStep, hb, Bool.false_eq_true, if_false, hz, gt_iff_lt,
          lt_self_iff_false]
        exact ih hrest acc
  unfold aiScoresList
  exact key availableAIs hzero []

/-- C3: when no persona scores above zero, ScheduleAIResponses picks the
configured fallback persona when available; when the fallback persona is
absent it returns an empty list TOGETHER WITH an error (the source
returns errors.New after the fallback check), not the non-error outcome
the claim describes. -/
theorem C3_fallback_behavior (st : RepoState) (userID message : String)
    (history : List ChatMessage) (availableAIs : List LLMCharacter)
    (classifyResult : Except String (List String))
    (mapIterOrder : List (String × Nat) → List (String × Nat))
    (hperm : ∀ l, (mapIterOrder l).Perm l)
    (hno : userID = "" ∨ getUserAssessmentByUserID st userID "in_progress" = none)
    (hzero : ∀ ai ∈ availableAIs, ai.id ≠ schedulerAIID →
      scoreAI ai message history (matchedTagsOf classifyResult) = 0) :
    scheduleAIResponses st userID message history availableAIs classifyResult mapIterOrder =
      if availableAIs.any (fun ai => ai.id == fallbackAgentID) then ([fallbackAgentID], none)
      else ([], some "抱歉，暂时无法处理您的请求") := by
  have hnil := aiScoresList_eq_nil availableAIs message history (matchedTagsOf classifyResult) hzero
  have hmio : mapIterOrder (aiScoresList availableAIs message history (matchedTagsOf classifyResult)) = [] := by
    rw [hnil]
    exact (hperm []).eq_nil
  have hby : scheduleByScore message history availableAIs classifyResult mapIterOrder =
      (if availableAIs.any (fun ai => ai.id == fallbackAgentID) then ([fallbackAgentID], none)
       else ([], some "抱歉，暂时无法处理您的请求")) := by
    simp only [scheduleByScore, hmio, sortAIsByScore, List.insertionSort, List.map_nil,
      List.isEmpty_nil, if_true]
  by_cases hu : userID = ""
  · subst hu
    simpa only [scheduleAIResponses, bne_self_eq_false, Bool.false_eq_true, if_false] using hby
  · have hg : getUserAssessmentByUserID st userID "in_progress" = none := hno.resolve_left hu
    have h1 : (userID != "") = true := by simpa using hu
    simpa only [scheduleAIResponses, h1, if_true, hg] using hby

/-- Witness for C3 with the fallback persona present: it is selected
alone with no error. -/
theorem C3_fallback_behavior_witness :
    scheduleAIResponses wStEmpty "" "" [] [{ id := "hs_empathy_agent", name := "知心姐", tags := [] }]
        (Except.ok []) id = (["hs_empathy_agent"], none) := by
  have h := C3_fallback_behavior wStEmpty "" "" []
    [{ id := "hs_empathy_agent", name := "知心姐", tags := [] }] (Except.ok []) id
    (fun l => List.Perm.refl l) (Or.inl rfl) (by decide)
  simpa using h

/-- Counterexample for C3 as stated: with one available persona scoring
zero and the fallback persona absent, the call returns an empty list
and a non-nil error, while the claim promises a non-error outcome. -/
theorem C3_fallback_counterexample :
    (∀ ai ∈ [({ id := "ai1", name := "Helper", tags := [] } : LLMCharacter)],
      scoreAI ai "" [] (matchedTagsOf (Except.ok [])) = 0) ∧
    scheduleAIResponses wStEmpty "" "" []
        [{ id := "ai1", name := "Helper", tags := [] }] (Except.ok []) id =
      ([], some "抱歉，暂时无法处理您的请求") := by
  constructor
  · decide
  · decide

/-- The tag part of the scoring loop is 3 points per matched tag the
persona carries, counted with multiplicity over matchedTags. -/
theorem tagScore_eq (aiTags : List String) (matchedTags : List String) :
    tagScore aiTags matchedTags = 3 * matchedTags.countP (fun t => containsTag aiTags t) := by
  have key : ∀ (l : List String) (s0 : Nat),
      l.foldl (fun s tag => if containsTag aiTags tag then s + 3 else s) s0 =
        s0 + 3 * l.countP (fun t => containsTag aiTags t) := by
    intro l
    induction l with
    | nil => intro s0; simp
    | cons t rest ih =>
      intro s0
      by_cases hp : containsTag aiTags t = true
      · simp only [List.foldl_cons, hp, if_true, ih, List.countP_cons, hp]
        ring
      · have hp2 : containsTag aiTags t = false := by simpa using hp
        simp only [List.foldl_cons, hp2, Bool.false_eq_true, if_false, ih,
          List.countP_cons, hp2]
        ring
  unfold tagScore
  simpa using key matchedTags 0

/-- When no entry of the map carries this key, the map write appends. -/
theorem scoreUpsert_append (acc : List (String × Nat)) (k : String) (v : Nat)
    (h : ∀ e ∈ acc, e.1 ≠ k) : scoreUpsert acc k v = acc ++ [(k, v)] := by
  induction acc with
  | nil => rfl
  | cons e rest ih =>
    have he : (e.1 == k) = false := by simp [h e (List.mem_cons_self _ _)]
    simp only [scoreUpsert, he, Bool.false_eq_true, if_false, List.cons_append,
      List.cons.injEq, true_and]
    exact ih (fun x hx => h x (List.mem_cons_of_mem _ hx))

/-- With pairwise-distinct persona ids, the aiScores map in insertion
order is exactly the non-router personas with positive score, each
paired with its score, in availableAIs order. -/
theorem aiScoresList_eq (availableAIs : List LLMCharacter) (message : String)
    (history : List ChatMessage) (matchedTags : List String)
    (hnodup : (availableAIs.map (fun x => x.id)).Nodup) :
    aiScoresList availableAIs message history matchedTags =
      (availableAIs.filter (fun ai =>
          ai.id != schedulerAIID && decide (0 < scoreAI ai message history matchedTags))).map
        (fun ai => (ai.id, scoreAI ai message history matchedTags)) := by
  have key : ∀ (l : List LLMCharacter) (acc : List (String × Nat)),
      (∀ ai ∈ l, ∀ e ∈ acc, e.1 ≠ ai.id) →
      (l.map (fun x => x.id)).Nodup →
      l.foldl (scoreStep message history matchedTags) acc =
        acc ++ (l.filter (fun ai =>
            ai.id != schedulerAIID && decide (0 < scoreAI ai message history matchedTags))).map
          (fun ai => (ai.id, scoreAI ai message history matchedTags)) := by
    intro l
    induction l with
    | nil => intro acc _ _; simp
    | cons a rest ih =>
      intro acc hacc hnd
      have hndrest : (rest.map (fun x => x.id)).Nodup := by
        simpa using hnd.of_cons
      have hnotmem : a.id ∉ rest.map (fun x => x.id) := by
        have := hnd
        simp only [List.map_cons, List.nodup_cons] at this
        exact this.1
      simp only [List.foldl_cons]
      by_cases ha : a.id = schedulerAIID
      · have hb : (a.id == schedulerAIID) = true := by simp [ha]
        have hfil : (a.id != schedulerAIID && decide (0 < scoreAI a message history matchedTags)) = false := by
          simp [bne, ha]
        simp only [scoreStep, hb, if_true, List.filter_cons, hfil, Bool.false_eq_true,
          if_false]
        exact ih acc (fun ai hm => hacc ai (List.mem_cons_of_mem _ hm)) hndrest
      · have hb : (a.id == schedulerAIID) = false := by simp [ha]
        by_cases hs : 0 < scoreAI a message history matchedTags
        · have hfil : (a.id != schedulerAIID && decide (0 < scoreAI a message history matchedTags)) = true := by
            simp [bne, ha, hs]
          have hup : scoreUpsert acc a.id (scoreAI a message history matchedTags) =
              acc ++ [(a.id, scoreAI a message history matchedTags)] :=
            scoreUpsert_append acc a.id _ (fun e he => hacc a (List.mem_cons_self _ _) e he)
          simp only [scoreStep, hb, Bool.false_eq_true, if_false, gt_iff_lt, hs, if_true, hup,
            List.filter_cons, hfil, List.map_cons]
          rw [ih (acc ++ [(a.id, scoreAI a message history matchedTags)]) ?_ hndrest]
          · simp [ha]
          · intro ai hm e he
            rcases List.mem_append.mp he with h1 | h2
            · exact hacc ai (List.mem_cons_of_mem _ hm) e h1
            · have : e = (a.id, scoreAI a message history matchedTags) := by simpa using h2
              subst this
              intro hcontra
              exact hnotmem (by
                simp only [List.mem_map]
                exact ⟨ai, hm, hcontra.symm⟩)
        · have hz : scoreAI a message history matchedTags = 0 := Nat.eq_zero_of_not_pos hs
          have hfil : (a.id != schedulerAIID && decide (0 < scoreAI a message history matchedTags)) = false := by
            simp [hz]
          rw [show scoreStep message history matchedTags acc a = acc from by
                simp [scoreStep, hb, hz],
              List.filter_cons, hfil]
          simp only [Bool.false_eq_true, if_false]
          exact ih acc (fun ai hm => hacc ai (List.mem_cons_of_mem _ hm)) hndrest
  unfold aiScoresList
  simpa using key availableAIs [] (by intro ai _ e he; cases he) hnodup

/-- The per-persona score as the specification words it (C4): 3 per
matched tag in the tag set, 5 for a direct case-insensitive mention
(with or without a leading at-sign), and 1 when the persona name is the
Name of one of the last 3 history entries - with no condition on the
content of that entry. Stated for comparison with scoreAI. -/
def scoreAIClaimed (ai : LLMCharacter) (message : String) (history : List ChatMessage)
    (matchedTags : List String) : Nat :=
  3 * matchedTags.countP (fun t => containsTag ai.tags t)
  + (if listContainsSub (toLowerList message) (toLowerList ai.name) ||
        listContainsSub (toLowerList message) ('@' :: toLowerList ai.name) then 5 else 0)
  + (if (getRecentHistory history 3).any (fun e => e.name == ai.name) then 1 else 0)

/-- Counterexample for C4 as stated: a persona whose name matches the
Name of a recent history entry with empty content scores 0 in the code
(the loop requires non-empty content) but 1 under the formula of the
claim, and the persona is excluded from the candidate set although the
claimed score is positive. -/
theorem C4_score_counterexample :
    scoreAI { id := "a1", name := "Ann", tags := [] } ""
        [{ role := "assistant", name := "Ann", content := "" }] [] = 0 ∧
    scoreAIClaimed { id := "a1", name := "Ann", tags := [] } ""
        [{ role := "assistant", name := "Ann", content := "" }] [] = 1 ∧
    aiScoresList [{ id := "a1", name := "Ann", tags := [] }] ""
        [{ role := "assistant", name := "Ann", content := "" }] [] = [] := by
  refine ⟨by decide, by decide, by decide⟩

/-- C4 as amended: the score is 3 per matched tag in the tag set, plus 5
for a direct mention, plus 1 when one of the last 3 history entries has
the persona name AND non-empty content; a non-router persona is in the
candidate set iff its score is positive (persona ids assumed pairwise
distinct, as config ids are). -/
theorem C4_score_formula (ai : LLMCharacter) (message : String) (history : List ChatMessage)
    (matchedTags : List String) (availableAIs : List LLMCharacter)
    (hnodup : (availableAIs.map (fun x => x.id)).Nodup) :
    (scoreAI ai message history matchedTags =
      3 * matchedTags.countP (fun t => containsTag ai.tags t)
      + (if listContainsSub (toLowerList message) (toLowerList ai.name) ||
            listContainsSub (toLowerList message) ('@' :: toLowerList ai.name) then 5 else 0)
      + (if (getRecentHistory history 3).any (fun e => e.name == ai.name && e.content != "") then 1 else 0)) ∧
    (∀ b ∈ availableAIs, b.id ≠ schedulerAIID →
      (b.id ∈ (aiScoresList availableAIs message history matchedTags).map (fun p => p.1) ↔
        0 < scoreAI b message history matchedTags)) := by
  constructor
  · unfold scoreAI mentionBonus recentBonus
    rw [tagScore_eq]
  · intro b hb hbne
    rw [aiScoresList_eq availableAIs message history matchedTags hnodup]
    constructor
    · intro hmem
      rw [List.map_map] at hmem
      rcases List.mem_map.mp hmem with ⟨c, hcmem, hcid⟩
      rcases List.mem_filter.mp hcmem with ⟨hcin, hcond⟩
      have hcb : c = b :=
        List.inj_on_of_nodup_map hnodup hcin hb (by simpa using hcid)
      subst hcb
      have h2 := hcond
      simp only [Bool.and_eq_true, decide_eq_true_eq] at h2
      exact h2.2
    · intro hpos
      rw [List.map_map]
      refine List.mem_map.mpr ⟨b, ?_, by simp⟩
      refine List.mem_filter.mpr ⟨hb, ?_⟩
      simp [bne, hbne, hpos]

/-- Witness for C4 at a concrete persona, message, history and tag set:
score = 3 + 5 + 1 and the persona is a candidate. -/
theorem C4_score_formula_witness :
    scoreAI { id := "k1", name := "Kay", tags := ["t"] } "hello @kay"
        [{ role := "assistant", name := "Kay", content := "hi" }] ["t"] = 9 ∧
    "k1" ∈ (aiScoresList [{ id := "k1", name := "Kay", tags := ["t"] }] "hello @kay"
        [{ role := "assistant", name := "Kay", content := "hi" }] ["t"]).map (fun p => p.1) := by
  have h := C4_score_formula { id := "k1", name := "Kay", tags := ["t"] } "hello @kay"
    [{ role := "assistant", name := "Kay", content := "hi" }] ["t"]
    [{ id := "k1", name := "Kay", tags := ["t"] }] (by decide)
  constructor
  · rw [h.1]; decide
  · exact ((h.2 { id := "k1", name := "Kay", tags := ["t"] } (by decide) (by decide)).mpr (by decide))

instance : IsTotal (String × Nat) (fun p q => q.2 ≤ p.2) :=
  ⟨fun a b => le_total b.2 a.2⟩

instance : IsTrans (String × Nat) (fun p q => q.2 ≤ p.2) :=
  ⟨fun _ _ _ hab hbc => le_trans hbc hab⟩

/-- Sorting two enumerations of the same score map gives the same id
list, provided the scores are pairwise distinct. -/
theorem sortAIsByScore_perm_eq (P l1 l2 : List (String × Nat))
    (h1 : l1.Perm P) (h2 : l2.Perm P)
    (hd : P.Pairwise (fun p q => p.2 ≠ q.2)) :
    sortAIsByScore l1 = sortAIsByScore l2 := by
  have hsymm : ∀ {x y : String × Nat}, x.2 ≠ y.2 → y.2 ≠ x.2 := fun h => Ne.symm h
  have s1p := List.perm_insertionSort (fun p q : String × Nat => q.2 ≤ p.2) l1
  have s2p := List.perm_insertionSort (fun p q : String × Nat => q.2 ≤ p.2) l2
  have sp : (List.insertionSort (fun p q : String × Nat => q.2 ≤ p.2) l1).Perm
      (List.insertionSort (fun p q : String × Nat => q.2 ≤ p.2) l2) :=
    ((s1p.trans h1).trans h2.symm).trans s2p.symm
  have sort1 := List.sorted_insertionSort (fun p q : String × Nat => q.2 ≤ p.2) l1
  have sort2 := List.sorted_insertionSort (fun p q : String × Nat => q.2 ≤ p.2) l2
  have hd1 : (List.insertionSort (fun p q : String × Nat => q.2 ≤ p.2) l1).Pairwise
      (fun p q => p.2 ≠ q.2) :=
    (List.Perm.pairwise_iff hsymm (s1p.trans h1)).mpr hd
  have hd2 : (List.insertionSort (fun p q : String × Nat => q.2 ≤ p.2) l2).Pairwise
      (fun p q => p.2 ≠ q.2) :=
    (List.Perm.pairwise_iff hsymm (s2p.trans h2)).mpr hd
  have strict1 : (List.insertionSort (fun p q : String × Nat => q.2 ≤ p.2) l1).Pairwise
      (fun p q : String × Nat => q.2 < p.2) :=
    (sort1.and hd1).imp (fun h => lt_of_le_of_ne h.1 (Ne.symm h.2))
  have strict2 : (List.insertionSort (fun p q : String × Nat => q.2 ≤ p.2) l2).Pairwise
      (fun p q : String × Nat => q.2 < p.2) :=
    (sort2.and hd2).imp (fun h => lt_of_le_of_ne h.1 (Ne.symm h.2))
  haveI : IsAntisymm (String × Nat) (fun p q => q.2 < p.2) :=
    ⟨fun a b hab hba => absurd (lt_trans hab hba) (lt_irrefl _)⟩
  have heq : List.insertionSort (fun p q : String × Nat => q.2 ≤ p.2) l1 =
      List.insertionSort (fun p q : String × Nat => q.2 ≤ p.2) l2 :=
    List.eq_of_perm_of_sorted sp strict1 strict2
  unfold sortAIsByScore
  rw [heq]

/-- C5 as amended: with a fixed message, history, persona set and
classifier outcome, and pairwise-distinct candidate scores, the result
of ScheduleAIResponses does not depend on the Go map iteration order;
when scores tie, the order the map happens to be enumerated in decides
the winner (see the counterexample), so determinism holds only up to
that. -/
theorem C5_determinism_distinct (st : RepoState) (userID message : String)
    (history : List ChatMessage) (availableAIs : List LLMCharacter)
    (classifyResult : Except String (List String))
    (mio1 mio2 : List (String × Nat) → List (String × Nat))
    (h1 : ∀ l, (mio1 l).Perm l) (h2 : ∀ l, (mio2 l).Perm l)
    (hd : (aiScoresList availableAIs message history (matchedTagsOf classifyResult)).Pairwise
      (fun p q => p.2 ≠ q.2)) :
    scheduleAIResponses st userID message history availableAIs classifyResult mio1 =
      scheduleAIResponses st userID message history availableAIs classifyResult mio2 := by
  have hsort : sortAIsByScore (mio1 (aiScoresList availableAIs message history (matchedTagsOf classifyResult))) =
      sortAIsByScore (mio2 (aiScoresList availableAIs message history (matchedTagsOf classifyResult))) :=
    sortAIsByScore_perm_eq _ _ _ (h1 _) (h2 _) hd
  have hby : scheduleByScore message history availableAIs classifyResult mio1 =
      scheduleByScore message history availableAIs classifyResult mio2 := by
    simp only [scheduleByScore, hsort]
  by_cases hu : (userID != "") = true
  · simp only [scheduleAIResponses, hu, if_true]
    cases hget : getUserAssessmentByUserID st userID "in_progress" with
    | none => simpa only [hget] using hby
    | some a => simp only [hget]
  · simp only [scheduleAIResponses, hu, Bool.false_eq_true, if_false]
    exact hby

/-- Witness for C5 at concrete inputs with distinct candidate scores and
two different iteration orders. -/
theorem C5_determinism_distinct_witness :
    scheduleAIResponses wStEmpty "" "hello ann" []
        [{ id := "a1", name := "Ann", tags := ["t"] }, { id := "a2", name := "Bob", tags := ["t"] }]
        (Except.ok ["t"]) id =
      scheduleAIResponses wStEmpty "" "hello ann" []
        [{ id := "a1", name := "Ann", tags := ["t"] }, { id := "a2", name := "Bob", tags := ["t"] }]
        (Except.ok ["t"]) List.reverse :=
  C5_determinism_distinct wStEmpty "" "hello ann" []
    [{ id := "a1", name := "Ann", tags := ["t"] }, { id := "a2", name := "Bob", tags := ["t"] }]
    (Except.ok ["t"]) id List.reverse
    (fun l => List.Perm.refl l) (fun l => List.reverse_perm l) (by decide)

/-- Counterexample for C5 as stated: two calls with identical message,
history, persona set and classifier outcome, differing only in the
(unobservable) Go map iteration order, return different persona lists
when two candidates tie; both iteration orders are genuine permutations
of the map contents. -/
theorem C5_determinism_counterexample :
    (∀ l : List (String × Nat), (id l).Perm l) ∧
    (∀ l : List (String × Nat), l.reverse.Perm l) ∧
    scheduleAIResponses wStEmpty "" "" []
        [{ id := "a1", name := "Ann", tags := ["t"] }, { id := "a2", name := "Bob", tags := ["t"] }]
        (Except.ok ["t"]) id ≠
      scheduleAIResponses wStEmpty "" "" []
        [{ id := "a1", name := "Ann", tags := ["t"] }, { id := "a2", name := "Bob", tags := ["t"] }]
        (Except.ok ["t"]) List.reverse :=
  ⟨fun l => List.Perm.refl l, fun l => List.reverse_perm l, by decide⟩

/-! ## Assessment service claims -/

/-- An in_progress assessment whose currentQuestionID was never seeded. -/
def cexAEmptyCur : UserAssessment :=
  { id := 1, userID := "u1", answers := [], status := "in_progress",
    currentQuestionID := "", startedAt := 1, completedAt := none,
    createdAt := 1, updatedAt := 1 }

/-- Store holding cexAEmptyCur. -/
def cexStEmptyCur : RepoState :=
  { userAssessments := [(1, cexAEmptyCur)], userIndex := [("u1", [1])], nextAssessmentID := 2 }

/-- C6 as amended: on a wrong-question submission the call mutates
nothing and returns a user-visible error; it returns the definition of
the actually expected question when that id is present in the catalog,
and no question (with a system-error message) when the expected id is
empty or unknown. -/
theorem C6_mismatch_behavior (st : RepoState) (userID questionID : String)
    (answerValues : List String) (now : Nat) (a : UserAssessment)
    (hget : getUserAssessmentByUserID st userID "in_progress" = some a)
    (hne : questionID ≠ a.currentQuestionID)
    (hexc : ¬(a.currentQuestionID = "" ∧ questionID = firstQuestionID)) :
    (∀ cq, findQuestionByID a.currentQuestionID = some cq →
      submitAnswer st userID questionID answerValues now =
        ((some cq, some a,
          some ("you seem to be answering a previous question. The current question is: '" ++ cq.text ++ "'")), st)) ∧
    (findQuestionByID a.currentQuestionID = none →
      submitAnswer st userID questionID answerValues now =
        ((none, some a,
          some ("system error: current assessment question (ID: " ++ a.currentQuestionID ++ ") not found. Please try starting the assessment again or contact support")), st)) := by
  have hfirst : (a.currentQuestionID == "" && questionID == firstQuestionID) = false := by
    by_cases hc : a.currentQuestionID = ""
    · have hq : (questionID == firstQuestionID) = false := by
        have hx : ¬ questionID = firstQuestionID := fun hh => hexc ⟨hc, hh⟩
        simpa using hx
      simp [hq]
    · simp [hc]
  have hne2 : (a.currentQuestionID != questionID) = true := by
    simpa [bne] using (Ne.symm hne)
  have main : submitAnswer st userID questionID answerValues now =
      (match findQuestionByID a.currentQuestionID with
       | none =>
         ((none, some a,
           some ("system error: current assessment question (ID: " ++ a.currentQuestionID ++ ") not found. Please try starting the assessment again or contact support")), st)
       | some cq =>
         ((some cq, some a,
           some ("you seem to be answering a previous question. The current question is: '" ++ cq.text ++ "'")), st)) := by
    unfold submitAnswer
    simp only [hget, hfirst, Bool.false_eq_true, if_false, hne2, if_true]
  constructor
  · intro cq hcq
    rw [main, hcq]
  · intro hcq
    rw [main, hcq]

/-- Witness for C6 on a concrete store: the expected question definition
is returned with the re-prompt message and the store is untouched. -/
theorem C6_mismatch_behavior_witness :
    (submitAnswer wStIP "u1" "q_age_group" ["25-34 years"] 7).1.1 =
      findQuestionByID "q_welcome" ∧
    (submitAnswer wStIP "u1" "q_age_group" ["25-34 years"] 7).2 = wStIP := by
  have h := C6_mismatch_behavior wStIP "u1" "q_age_group" ["25-34 years"] 7 wAssessIP
    (by decide) (by decide) (by decide)
  cases hcq : findQuestionByID wAssessIP.currentQuestionID with
  | none => exact absurd hcq (by decide)
  | some cq =>
    have h1 := h.1 cq hcq
    rw [h1]
    refine ⟨?_, rfl⟩
    have heq : findQuestionByID wAssessIP.currentQuestionID = findQuestionByID "q_welcome" := rfl
    rw [← heq, hcq]

/-- Counterexample for C6 as stated: with an in_progress assessment
whose currentQuestionID is empty, submitting a non-first question is a
mismatch outside the stated exception, yet the call returns NO question
definition (with a system-error message), not the actually expected
question definition the claim promises. -/
theorem C6_mismatch_counterexample :
    (getUserAssessmentByUserID cexStEmptyCur "u1" "in_progress" = some cexAEmptyCur ∧
     cexAEmptyCur.status = "in_progress" ∧
     "q_age_group" ≠ cexAEmptyCur.currentQuestionID ∧
     ¬(cexAEmptyCur.currentQuestionID = "" ∧ "q_age_group" = firstQuestionID)) ∧
    (submitAnswer cexStEmptyCur "u1" "q_age_group" ["25-34 years"] 7).1.1 = none ∧
    (submitAnswer cexStEmptyCur "u1" "q_age_group" ["25-34 years"] 7).1.2.2.isSome = true := by
  refine ⟨⟨by decide, by decide, by decide, by decide⟩, by decide, by decide⟩

/-- The status-filter test of the scan: pass when no filter is set or
the record status matches. -/
def pickOK (targetStatus : String) (a : UserAssessment) : Bool :=
  targetStatus == "" || a.status == targetStatus

/-- The scan step in terms of pickOK. -/
theorem pickStep_eq (m : List (Nat × UserAssessment)) (target : String)
    (acc : Option UserAssessment × Nat) (assessmentID : Nat) :
    pickStep m target acc assessmentID =
      match alistGet m assessmentID with
      | none => acc
      | some a =>
        if pickOK target a then
          (if acc.1.isNone || acc.2 < a.updatedAt then (some a, a.updatedAt) else acc)
        else acc := by
  unfold pickStep pickOK
  cases alistGet m assessmentID with
  | none => rfl
  | some a =>
    by_cases ht : target = ""
    · subst ht; simp
    · have h1 : (target != "") = true := by simpa using ht
      have h2 : (target == "") = false := by simpa using ht
      simp only [h1, if_true, h2, Bool.false_or]

/-- One scan step preserves the accumulator invariants, only grows the
best timestamp, never drops a some result, and dominates the record it
just examined when that record passes the filter. -/
theorem pickStep_facts (m : List (Nat × UserAssessment)) (target : String) (L : List Nat)
    (acc : Option UserAssessment × Nat) (i : Nat)
    (hiL : i ∈ L)
    (hacc0 : acc.1 = none → acc.2 = 0)
    (hacc1 : ∀ b, acc.1 = some b → acc.2 = b.updatedAt ∧ pickOK target b = true ∧
      ∃ k ∈ L, alistGet m k = some b) :
    (acc.2 ≤ (pickStep m target acc i).2) ∧
    (acc.1.isSome = true → (pickStep m target acc i).1.isSome = true) ∧
    ((pickStep m target acc i).1 = none → (pickStep m target acc i).2 = 0) ∧
    (∀ b, (pickStep m target acc i).1 = some b →
      (pickStep m target acc i).2 = b.updatedAt ∧ pickOK target b = true ∧
      ∃ k ∈ L, alistGet m k = some b) ∧
    (∀ b, alistGet m i = some b → pickOK target b = true →
      (pickStep m target acc i).1.isSome = true ∧ b.updatedAt ≤ (pickStep m target acc i).2) := by
  rw [pickStep_eq]
  cases hget : alistGet m i with
  | none =>
    dsimp only
    refine ⟨le_refl _, fun h => h, hacc0, hacc1, ?_⟩
    intro b hb
    cases hb
  | some a =>
    dsimp only
    by_cases hok : pickOK target a = true
    · rw [if_pos hok]
      by_cases htake : (acc.1.isNone || decide (acc.2 < a.updatedAt)) = true
      · rw [if_pos htake]
        have hgrow : acc.2 ≤ a.updatedAt := by
          have h2 : acc.1 = none ∨ acc.2 < a.updatedAt := by simpa using htake
          rcases h2 with hnone | hlt
          · rw [hacc0 hnone]
            exact Nat.zero_le _
          · exact le_of_lt hlt
        refine ⟨hgrow, fun _ => rfl, ?_, ?_, ?_⟩
        · intro h
          cases h
        · intro b hb
          have hba : b = a := by
            have := hb.symm
            simpa using this
          subst hba
          exact ⟨rfl, hok, i, hiL, hget⟩
        · intro b hb hbok
          have hba : b = a := by
            have := hb.symm
            simpa using this
          subst hba
          exact ⟨rfl, le_refl _⟩
      · rw [if_neg htake]
        have hparts : ¬acc.1 = none ∧ a.updatedAt ≤ acc.2 := by simpa using htake
        have hsome : acc.1.isSome = true := by
          cases hcase : acc.1 with
          | none => exact absurd hcase hparts.1
          | some x => rfl
        refine ⟨le_refl _, fun h => h, hacc0, hacc1, ?_⟩
        intro b hb hbok
        have hba : b = a := by
          have := hb.symm
          simpa using this
        subst hba
        exact ⟨hsome, hparts.2⟩
    · rw [if_neg hok]
      refine ⟨le_refl _, fun h => h, hacc0, hacc1, ?_⟩
      intro b hb hbok
      have hba : b = a := by
        have := hb.symm
        simpa using this
      subst hba
      exact absurd hbok hok

/-- Invariant of the GetUserAssessmentByUserID scan: the best-so-far
timestamp only grows, a some result never reverts to none, a none
result keeps timestamp zero, a some result is a stored record passing
the filter and carrying the best timestamp, and every stored record
reachable from the scanned ids that passes the filter is dominated. -/
theorem pickFold_spec (m : List (Nat × UserAssessment)) (target : String) (L : List Nat) :
    ∀ (ids : List Nat) (acc : Option UserAssessment × Nat),
    (∀ k ∈ ids, k ∈ L) →
    (acc.1 = none → acc.2 = 0) →
    (∀ b, acc.1 = some b → acc.2 = b.updatedAt ∧ pickOK target b = true ∧
      ∃ k ∈ L, alistGet m k = some b) →
    (acc.2 ≤ (ids.foldl (pickStep m target) acc).2) ∧
    (acc.1.isSome = true → ((ids.foldl (pickStep m target) acc).1).isSome = true) ∧
    ((ids.foldl (pickStep m target) acc).1 = none → (ids.foldl (pickStep m target) acc).2 = 0) ∧
    (∀ b, (ids.foldl (pickStep m target) acc).1 = some b →
      (ids.foldl (pickStep m target) acc).2 = b.updatedAt ∧ pickOK target b = true ∧
      ∃ k ∈ L, alistGet m k = some b) ∧
    (∀ i ∈ ids, ∀ b, alistGet m i = some b → pickOK target b = true →
      ((ids.foldl (pickStep m target) acc).1).isSome = true ∧
      b.updatedAt ≤ (ids.foldl (pickStep m target) acc).2) := by
  intro ids
  induction ids with
  | nil =>
    intro acc _ hacc0 hacc1
    refine ⟨le_refl _, fun h => h, hacc0, hacc1, ?_⟩
    intro i hi
    cases hi
  | cons i ids ih =>
    intro acc hsub hacc0 hacc1
    have hsubrest : ∀ k ∈ ids, k ∈ L := fun k hk => hsub k (List.mem_cons_of_mem _ hk)
    have hiL : i ∈ L := hsub i (List.mem_cons_self _ _)
    rcases pickStep_facts m target L acc i hiL hacc0 hacc1 with ⟨hg1, hg2, hg3, hg4, hg5⟩
    rcases ih (pickStep m target acc i) hsubrest hg3 hg4 with ⟨hr1, hr2, hr3, hr4, hr5⟩
    have hfold : (i :: ids).foldl (pickStep m target) acc =
        ids.foldl (pickStep m target) (pickStep m target acc i) := by
      simp [List.foldl_cons]
    rw [hfold]
    refine ⟨le_trans hg1 hr1, fun h => hr2 (hg2 h), hr3, hr4, ?_⟩
    intro j hj b hb hbok
    rcases List.mem_cons.mp hj with hj1 | hj2
    · subst hj1
      rcases hg5 b hb hbok with ⟨hs, hle⟩
      exact ⟨hr2 hs, le_trans hle hr1⟩
    · exact hr5 j hj2 b hb hbok

/-- A successful lookup returns a stored record that passes the filter
and dominates (by updatedAt) every indexed record of that user that
passes the filter. -/
theorem getUA_some_spec (st : RepoState) (u target : String) (a : UserAssessment)
    (h : getUserAssessmentByUserID st u target = some a) :
    pickOK target a = true ∧ a ∈ userAssessmentsOf st u ∧
    (∀ b ∈ userAssessmentsOf st u, pickOK target b = true →
      b.updatedAt ≤ a.updatedAt) := by
  unfold getUserAssessmentByUserID at h
  cases hidx : indexGet st.userIndex u with
  | none =>
    rw [hidx] at h
    cases h
  | some ids =>
    rw [hidx] at h
    dsimp only at h
    by_cases hemp : ids.isEmpty = true
    · rw [if_pos hemp] at h
      cases h
    · rw [if_neg hemp] at h
      have hspec := pickFold_spec st.userAssessments target ids ids.reverse (none, 0)
        (fun k hk => List.mem_reverse.mp hk)
        (fun _ => rfl)
        (by intro b hb; cases hb)
      rcases hspec with ⟨-, -, -, h4, h5⟩
      rcases h4 a h with ⟨hts, hok, k, hkL, hkget⟩
      have hmem : a ∈ userAssessmentsOf st u := by
        unfold userAssessmentsOf
        rw [hidx]
        simp only [Option.getD_some]
        exact List.mem_filterMap.mpr ⟨k, hkL, hkget⟩
      refine ⟨hok, hmem, ?_⟩
      intro b hbmem hbok
      have hbsrc : ∃ k2 ∈ ids, alistGet st.userAssessments k2 = some b := by
        unfold userAssessmentsOf at hbmem
        rw [hidx] at hbmem
        simpa using List.mem_filterMap.mp (by simpa using hbmem)
      rcases hbsrc with ⟨k2, hk2, hk2get⟩
      have := h5 k2 (List.mem_reverse.mpr hk2) b hk2get hbok
      rw [hts] at this
      exact this.2

/-- A none lookup means no indexed record of the user passes the
filter. -/
theorem getUA_none_spec (st : RepoState) (u target : String)
    (h : getUserAssessmentByUserID st u target = none) :
    ∀ b ∈ userAssessmentsOf st u, pickOK target b = false := by
  intro b hbmem
  unfold getUserAssessmentByUserID at h
  cases hidx : indexGet st.userIndex u with
  | none =>
    unfold userAssessmentsOf at hbmem
    rw [hidx] at hbmem
    simp at hbmem
  | some ids =>
    rw [hidx] at h
    dsimp only at h
    by_cases hemp : ids.isEmpty = true
    · unfold userAssessmentsOf at hbmem
      rw [hidx] at hbmem
      rw [List.isEmpty_iff.mp hemp] at hbmem
      simp at hbmem
    · rw [if_neg hemp] at h
      have hbsrc : ∃ k2 ∈ ids, alistGet st.userAssessments k2 = some b := by
        unfold userAssessmentsOf at hbmem
        rw [hidx] at hbmem
        simpa using List.mem_filterMap.mp (by simpa using hbmem)
      rcases hbsrc with ⟨k2, hk2, hk2get⟩
      by_cases hbok : pickOK target b = true
      · have hspec := pickFold_spec st.userAssessments target ids ids.reverse (none, 0)
          (fun k hk => List.mem_reverse.mp hk)
          (fun _ => rfl)
          (by intro c hc; cases hc)
        rcases hspec with ⟨-, -, -, -, h5⟩
        have := (h5 k2 (List.mem_reverse.mpr hk2) b hk2get hbok).1
        rw [h] at this
        cases this
      · simpa using hbok

/-- With the store well-formed, a successful lookup is stored under the
id of the returned record. -/
theorem getUA_stored (st : RepoState) (u target : String) (a : UserAssessment)
    (hwf : repoWF st) (h : getUserAssessmentByUserID st u target = some a) :
    alistGet st.userAssessments a.id = some a := by
  rcases getUA_some_spec st u target a h with ⟨-, hmem, -⟩
  unfold userAssessmentsOf at hmem
  rcases List.mem_filterMap.mp hmem with ⟨k, -, hkget⟩
  have hk : (k, a) ∈ st.userAssessments := alistGet_mem _ _ _ hkget
  have hid : a.id = k := hwf (k, a) hk
  rw [hid]
  exact hkget

/-- A filtered successful lookup returns a record with that status. -/
theorem getUA_status (st : RepoState) (u target : String) (a : UserAssessment)
    (htarget : target ≠ "") (h : getUserAssessmentByUserID st u target = some a) :
    a.status = target := by
  rcases getUA_some_spec st u target a h with ⟨hok, -, -⟩
  unfold pickOK at hok
  have h2 : (target == "") = false := by simpa using htarget
  rw [h2, Bool.false_or] at hok
  exact beq_iff_eq.mp hok

/-- A completed assessment of user u2 in an otherwise empty store. -/
def wAssessDone : UserAssessment :=
  { id := 1, userID := "u2", answers := [], status := "completed",
    currentQuestionID := "", startedAt := 1, completedAt := some 2,
    createdAt := 1, updatedAt := 2 }

/-- Witness store holding wAssessDone. -/
def wStDone : RepoState :=
  { userAssessments := [(1, wAssessDone)], userIndex := [("u2", [1])], nextAssessmentID := 2 }

/-- C9 as amended: for every NON-EMPTY userID, GetAssessmentResult
returns a stored completed assessment of the user that dominates every
completed assessment indexed for the user by updatedAt, and returns
(none, none) - not an error - when the user has no completed
assessment; for the empty userID the call returns an error instead
(see the counterexample). -/
theorem C9_result_behavior (st : RepoState) (userID : String) (hu : userID ≠ "") :
    (getUserAssessmentByUserID st userID "completed" = none →
      getAssessmentResult st userID = (none, none) ∧
      ∀ b ∈ userAssessmentsOf st userID, b.status ≠ "completed") ∧
    (∀ a, getUserAssessmentByUserID st userID "completed" = some a →
      getAssessmentResult st userID = (some a, none) ∧
      a.status = "completed" ∧ a ∈ userAssessmentsOf st userID ∧
      (∀ b ∈ userAssessmentsOf st userID, b.status = "completed" →
        b.updatedAt ≤ a.updatedAt)) := by
  have hne : (userID == "") = false := by simpa using hu
  constructor
  · intro h
    constructor
    · unfold getAssessmentResult
      rw [hne]
      simp only [Bool.false_eq_true, if_false, h]
    · intro b hb
      have hfail := getUA_none_spec st userID "completed" h b hb
      unfold pickOK at hfail
      intro hc
      rw [hc] at hfail
      simp at hfail
  · intro a h
    refine ⟨?_, getUA_status st userID "completed" a (by decide) h, ?_, ?_⟩
    · unfold getAssessmentResult
      rw [hne]
      simp only [Bool.false_eq_true, if_false, h]
    · exact (getUA_some_spec st userID "completed" a h).2.1
    · intro b hb hbc
      refine (getUA_some_spec st userID "completed" a h).2.2 b hb ?_
      unfold pickOK
      simp [hbc]

/-- Witness for C9 with a completed assessment present and with none
present. -/
theorem C9_result_behavior_witness :
    getAssessmentResult wStDone "u2" = (some wAssessDone, none) ∧
    getAssessmentResult wStEmpty "u2" = (none, none) := by
  constructor
  · exact ((C9_result_behavior wStDone "u2" (by decide)).2 wAssessDone (by decide)).1
  · exact ((C9_result_behavior wStEmpty "u2" (by decide)).1 (by decide)).1

/-- Counterexample for C9 as stated: for the empty userID no completed
assessment exists, yet GetAssessmentResult returns an error rather than
the promised (none, none). -/
theorem C9_result_counterexample :
    (∀ b ∈ userAssessmentsOf wStEmpty "", b.status ≠ "completed") ∧
    getAssessmentResult wStEmpty "" = (none, some "userID cannot be empty") := by
  refine ⟨by decide, by decide⟩

/-- The fixed welcome-decline message. -/
def welcomeDeclineMsg : String :=
  "Okay, we respect your choice. You can restart the assessment anytime if you change your mind."

/-- The fixed privacy-refusal message. -/
def privacyDeclineMsg : String :=
  "We take your privacy very seriously. If you do not agree to the processing of your information, we cannot proceed with personalized services. The assessment has been discontinued."

/-- The validated-and-positioned tail of SubmitAnswer on a declining
special answer: the assessment is cancelled, the position cleared, the
change persisted, and the fixed message returned with no question. -/
theorem submitCore_decline (st : RepoState) (a a1 : UserAssessment)
    (q d msg : String) (values : List String) (now : Nat)
    (hstored : alistGet st.userAssessments a.id = some a)
    (ha1 : a1 = a ∨ a1 = { a with currentQuestionID := q })
    (hqd : (q = "q_welcome" ∧ d = "No, next time" ∧ msg = welcomeDeclineMsg) ∨
           (q = "q_privacy_consent" ∧ d = "I do not agree" ∧ msg = privacyDeclineMsg))
    (hd : d ∈ values) :
    submitCore st a1 q values now =
      ((none,
        some { a with status := "cancelled", currentQuestionID := "", updatedAt := now },
        some msg),
       { st with
         userAssessments :=
           alistPut st.userAssessments a.id
             { a with status := "cancelled", currentQuestionID := "", updatedAt := now } }) := by
  have hreq : ∀ d2 : String, d2 ∈ values → trimSpace d2 ≠ "" →
      (values.isEmpty || (values.length == 1 && trimSpace (values.headD "") == "")) = false := by
    intro d2 hd2 htrim
    cases values with
    | nil => cases hd2
    | cons v vs =>
      cases vs with
      | nil =>
        have hv : v = d2 := (List.mem_singleton.mp hd2).symm
        subst hv
        have ht : (trimSpace v == "") = false := by simpa using htrim
        simp [ht]
      | cons v2 vs2 =>
        have hnat : (v :: v2 :: vs2).length ≠ 1 := by
          simp only [List.length_cons]
          omega
        have hlen : ((v :: v2 :: vs2).length == 1) = false := by simp [hnat]
        simp [hlen]
  rcases hqd with ⟨hq, hdd, hmsg⟩ | ⟨hq, hdd, hmsg⟩
  · subst hq; subst hdd; subst hmsg
    unfold submitCore
    cases hfq : findQuestionByID "q_welcome" with
    | none => exact absurd hfq (by decide)
    | some qdef =>
      have hqid : qdef.id = "q_welcome" := by
        unfold findQuestionByID at hfq
        have := List.find?_some hfq
        simpa using this
      have hne := hreq "No, next time" hd (by decide)
      have hcond : (qdef.isRequired &&
          (values.isEmpty || (values.length == 1 && trimSpace (values.headD "") == ""))) = false := by
        rw [hne]
        exact Bool.and_false _
      dsimp only
      rw [hcond]
      simp only [Bool.false_eq_true, if_false]
      have hcontains : values.contains "No, next time" = true := List.elem_eq_true_of_mem hd
      have hpsa : processSpecialAnswers a1 qdef values =
          some ({ a1 with status := "cancelled", currentQuestionID := "" }, welcomeDeclineMsg) := by
        unfold processSpecialAnswers
        rw [hqid]
        simp [hcontains, hd, welcomeDeclineMsg]
      rw [hpsa]
      dsimp only
      have hid : ({ a1 with status := "cancelled", currentQuestionID := "" } : UserAssessment).id = a.id := by
        rcases ha1 with h | h <;> subst h <;> rfl
      unfold updateUserAssessment
      rw [hid, hstored]
      dsimp only
      rcases ha1 with h | h <;> subst h <;> rfl
  · subst hq; subst hdd; subst hmsg
    unfold submitCore
    cases hfq : findQuestionByID "q_privacy_consent" with
    | none => exact absurd hfq (by decide)
    | some qdef =>
      have hqid : qdef.id = "q_privacy_consent" := by
        unfold findQuestionByID at hfq
        have := List.find?_some hfq
        simpa using this
      have hne := hreq "I do not agree" hd (by decide)
      have hcond : (qdef.isRequired &&
          (values.isEmpty || (values.length == 1 && trimSpace (values.headD "") == ""))) = false := by
        rw [hne]
        exact Bool.and_false _
      dsimp only
      rw [hcond]
      simp only [Bool.false_eq_true, if_false]
      have hcontains : values.contains "I do not agree" = true := List.elem_eq_true_of_mem hd
      have hpsa : processSpecialAnswers a1 qdef values =
          some ({ a1 with status := "cancelled", currentQuestionID := "" }, privacyDeclineMsg) := by
        unfold processSpecialAnswers
        rw [hqid]
        simp [hcontains, hd, privacyDeclineMsg]
      rw [hpsa]
      dsimp only
      have hid : ({ a1 with status := "cancelled", currentQuestionID := "" } : UserAssessment).id = a.id := by
        rcases ha1 with h | h <;> subst h <;> rfl
      unfold updateUserAssessment
      rw [hid, hstored]
      dsimp only
      rcases ha1 with h | h <;> subst h <;> rfl

/-- SubmitAnswer on a declining special answer, positioning included. -/
theorem submitAnswer_decline (st : RepoState) (u : String) (values : List String) (now : Nat)
    (a : UserAssessment) (q d msg : String)
    (hwf : repoWF st)
    (hget : getUserAssessmentByUserID st u "in_progress" = some a)
    (hcase :
      (q = "q_welcome" ∧ d = "No, next time" ∧ msg = welcomeDeclineMsg ∧
        (a.currentQuestionID = "q_welcome" ∨ a.currentQuestionID = "")) ∨
      (q = "q_privacy_consent" ∧ d = "I do not agree" ∧ msg = privacyDeclineMsg ∧
        a.currentQuestionID = "q_privacy_consent"))
    (hd : d ∈ values) :
    submitAnswer st u q values now =
      ((none,
        some { a with status := "cancelled", currentQuestionID := "", updatedAt := now },
        some msg),
       { st with
         userAssessments :=
           alistPut st.userAssessments a.id
             { a with status := "cancelled", currentQuestionID := "", updatedAt := now } }) := by
  have hstored : alistGet st.userAssessments a.id = some a :=
    getUA_stored st u "in_progress" a hwf hget
  rcases hcase with ⟨hq, hdd, hmsg, hpos⟩ | ⟨hq, hdd, hmsg, hpos⟩
  · subst hq; subst hdd; subst hmsg
    rcases hpos with hcur | hcur
    · have hc1 : (a.currentQuestionID == "" && ("q_welcome" == firstQuestionID)) = false := by
        simp [hcur]
      have hc2 : (a.currentQuestionID != "q_welcome") = false := by
        simp [hcur]
      unfold submitAnswer
      simp only [hget, hc1, Bool.false_eq_true, if_false, hc2]
      exact submitCore_decline st a a "q_welcome" "No, next time" welcomeDeclineMsg values now
        hstored (Or.inl rfl) (Or.inl ⟨rfl, rfl, rfl⟩) hd
    · have hc1 : (a.currentQuestionID == "" && ("q_welcome" == firstQuestionID)) = true := by
        simp [hcur]
        rfl
      unfold submitAnswer
      simp only [hget, hc1, if_true]
      exact submitCore_decline st a { a with currentQuestionID := "q_welcome" } "q_welcome"
        "No, next time" welcomeDeclineMsg values now hstored (Or.inr rfl)
        (Or.inl ⟨rfl, rfl, rfl⟩) hd
  · subst hq; subst hdd; subst hmsg
    have hc1 : (a.currentQuestionID == "" && ("q_privacy_consent" == firstQuestionID)) = false := by
      simp [hpos]
    have hc2 : (a.currentQuestionID != "q_privacy_consent") = false := by
      simp [hpos]
    unfold submitAnswer
    simp only [hget, hc1, Bool.false_eq_true, if_false, hc2]
    exact submitCore_decline st a a "q_privacy_consent" "I do not agree" privacyDeclineMsg values now
      hstored (Or.inl rfl) (Or.inr ⟨rfl, rfl, rfl⟩) hd

/-- C7: answering the welcome question with its declining option, or the
privacy-consent question with its declining option, on an in_progress
assessment cancels it: status becomes cancelled, currentQuestionID is
cleared, the change is persisted in the store before returning, and the
call returns no question, the cancelled assessment, and the fixed
user-facing message as an error-shaped result. -/
theorem C7_decline_cancels (st : RepoState) (u : String) (values : List String) (now : Nat)
    (a : UserAssessment) (q d msg : String)
    (hwf : repoWF st)
    (hget : getUserAssessmentByUserID st u "in_progress" = some a)
    (hcase :
      (q = "q_welcome" ∧ d = "No, next time" ∧ msg = welcomeDeclineMsg ∧
        (a.currentQuestionID = "q_welcome" ∨ a.currentQuestionID = "")) ∨
      (q = "q_privacy_consent" ∧ d = "I do not agree" ∧ msg = privacyDeclineMsg ∧
        a.currentQuestionID = "q_privacy_consent"))
    (hd : d ∈ values) :
    submitAnswer st u q values now =
      ((none,
        some { a with status := "cancelled", currentQuestionID := "", updatedAt := now },
        some msg),
       { st with
         userAssessments :=
           alistPut st.userAssessments a.id
             { a with status := "cancelled", currentQuestionID := "", updatedAt := now } }) :=
  submitAnswer_decline st u values now a q d msg hwf hget hcase hd

/-- Witness for C7: declining the welcome question on a concrete store. -/
theorem C7_decline_cancels_witness :
    submitAnswer wStIP "u1" "q_welcome" ["No, next time"] 9 =
      ((none,
        some { wAssessIP with status := "cancelled", currentQuestionID := "", updatedAt := 9 },
        some welcomeDeclineMsg),
       { wStIP with
         userAssessments :=
           alistPut wStIP.userAssessments 1
             { wAssessIP with status := "cancelled", currentQuestionID := "", updatedAt := 9 } }) := by
  have h := C7_decline_cancels wStIP "u1" ["No, next time"] 9 wAssessIP
    "q_welcome" "No, next time" welcomeDeclineMsg (by decide) (by decide)
    (Or.inl ⟨rfl, rfl, rfl, Or.inl (by decide)⟩) (by decide)
  simpa using h

/-- An in_progress assessment of u1 positioned at the final privacy
question, with one stored answer. -/
def wAssessPriv : UserAssessment :=
  { id := 1, userID := "u1",
    answers := [{ questionID := "q_welcome", answer := ["Yes, I\u0027m ready"] }],
    status := "in_progress", currentQuestionID := "q_privacy_consent",
    startedAt := 1, completedAt := none, createdAt := 1, updatedAt := 3 }

/-- Witness store holding wAssessPriv. -/
def wStPriv : RepoState :=
  { userAssessments := [(1, wAssessPriv)], userIndex := [("u1", [1])], nextAssessmentID := 2 }

/-- C10: a declining special answer is never upserted into answers; the
persisted record keeps the answers list - and every other field except
status, currentQuestionID and updatedAt - exactly as it was. -/
theorem C10_cancel_frame (st : RepoState) (u : String) (values : List String) (now : Nat)
    (a : UserAssessment) (q d msg : String)
    (hwf : repoWF st)
    (hget : getUserAssessmentByUserID st u "in_progress" = some a)
    (hcase :
      (q = "q_welcome" ∧ d = "No, next time" ∧ msg = welcomeDeclineMsg ∧
        (a.currentQuestionID = "q_welcome" ∨ a.currentQuestionID = "")) ∨
      (q = "q_privacy_consent" ∧ d = "I do not agree" ∧ msg = privacyDeclineMsg ∧
        a.currentQuestionID = "q_privacy_consent"))
    (hd : d ∈ values) :
    ∃ a2, submitAnswer st u q values now =
        ((none, some a2, some msg),
         { st with userAssessments := alistPut st.userAssessments a.id a2 }) ∧
      a2.answers = a.answers ∧ a2.id = a.id ∧ a2.userID = a.userID ∧
      a2.startedAt = a.startedAt ∧ a2.createdAt = a.createdAt ∧
      a2.completedAt = a.completedAt ∧
      a2.status = "cancelled" ∧ a2.currentQuestionID = "" ∧ a2.updatedAt = now := by
  refine ⟨{ a with status := "cancelled", currentQuestionID := "", updatedAt := now },
    submitAnswer_decline st u values now a q d msg hwf hget hcase hd,
    rfl, rfl, rfl, rfl, rfl, rfl, rfl, rfl, rfl⟩

/-- Witness for C10: refusing privacy consent leaves the stored answers
untouched. -/
theorem C10_cancel_frame_witness :
    ((submitAnswer wStPriv "u1" "q_privacy_consent" ["I do not agree"] 9).1.2.1).map
      (fun x => x.answers) = some wAssessPriv.answers := by
  obtain ⟨a2, heq, hans, -⟩ := C10_cancel_frame wStPriv "u1" ["I do not agree"] 9 wAssessPriv
    "q_privacy_consent" "I do not agree" privacyDeclineMsg (by decide) (by decide)
    (Or.inr ⟨rfl, rfl, rfl, by decide⟩) (by decide)
  rw [heq]
  simp [hans]

/-- C8 as amended: a valid answer to the final catalog question that is
NOT the declining consent option completes the assessment: status
becomes completed, completedAt is set, currentQuestionID is cleared,
the record is persisted, and the call returns (no next question, the
completed assessment, no error). The declining option, although a valid
answer to that question, cancels instead (see the counterexample). -/
theorem C8_complete_last (st : RepoState) (u : String) (values : List String) (now : Nat)
    (a : UserAssessment)
    (hwf : repoWF st)
    (hget : getUserAssessmentByUserID st u "in_progress" = some a)
    (hcur : a.currentQuestionID = "q_privacy_consent")
    (hvalid : (values.isEmpty || (values.length == 1 && trimSpace (values.headD "") == "")) = false)
    (hnd : values.contains "I do not agree" = false) :
    submitAnswer st u "q_privacy_consent" values now =
      ((none,
        some { a with
               answers := upsertAnswerList a.answers "q_privacy_consent" values
               status := "completed"
               currentQuestionID := ""
               completedAt := some now
               updatedAt := now },
        none),
       { st with
         userAssessments :=
           alistPut st.userAssessments a.id
             { a with
               answers := upsertAnswerList a.answers "q_privacy_consent" values
               status := "completed"
               currentQuestionID := ""
               completedAt := some now
               updatedAt := now } }) := by
  have hstored : alistGet st.userAssessments a.id = some a :=
    getUA_stored st u "in_progress" a hwf hget
  have hc1 : (a.currentQuestionID == "" && ("q_privacy_consent" == firstQuestionID)) = false := by
    simp [hcur]
  have hc2 : (a.currentQuestionID != "q_privacy_consent") = false := by
    simp [hcur]
  unfold submitAnswer
  simp only [hget, hc1, Bool.false_eq_true, if_false, hc2]
  unfold submitCore
  cases hfq : findQuestionByID "q_privacy_consent" with
  | none => exact absurd hfq (by decide)
  | some qdef =>
    have hqid : qdef.id = "q_privacy_consent" := by
      unfold findQuestionByID at hfq
      have := List.find?_some hfq
      simpa using this
    have hcond : (qdef.isRequired &&
        (values.isEmpty || (values.length == 1 && trimSpace (values.headD "") == ""))) = false := by
      rw [hvalid]
      exact Bool.and_false _
    dsimp only
    rw [hcond]
    simp only [Bool.false_eq_true, if_false]
    have hcnd1 : (qdef.id == "q_welcome" && values.contains "No, next time") = false := by
      rw [hqid]
      simp
    have hcnd2 : (qdef.id == "q_privacy_consent" && values.contains "I do not agree") = false := by
      rw [hqid, hnd]
      simp
    have hpsa : processSpecialAnswers a qdef values = none := by
      unfold processSpecialAnswers
      rw [hcnd1]
      simp only [Bool.false_eq_true, if_false]
      rw [hcnd2]
      simp only [Bool.false_eq_true, if_false]
    rw [hpsa]
    dsimp only
    have hidx : questions.findIdx? (fun qq => qq.id == "q_privacy_consent") = some 10 := by rfl
    rw [hidx]
    dsimp only
    rw [dif_neg (by decide : ¬ (10 + 1 < questions.length))]
    unfold updateUserAssessment
    dsimp only
    rw [hstored]
    dsimp only
    rfl

/-- Witness for C8: answering the final question with the agreeing
option completes the assessment with completedAt set and position
cleared, persisted, with no error. -/
theorem C8_complete_last_witness :
    ((submitAnswer wStPriv "u1" "q_privacy_consent" ["I agree and continue"] 9).1.2.1).map
        (fun x => (x.status, x.completedAt, x.currentQuestionID)) =
      some ("completed", some 9, "") ∧
    (submitAnswer wStPriv "u1" "q_privacy_consent" ["I agree and continue"] 9).1.1 = none ∧
    (submitAnswer wStPriv "u1" "q_privacy_consent" ["I agree and continue"] 9).1.2.2 = none := by
  have h := C8_complete_last wStPriv "u1" ["I agree and continue"] 9 wAssessPriv
    (by decide) (by decide) (by decide) (by decide) (by decide)
  rw [h]
  exact ⟨rfl, rfl, rfl⟩

/-- Counterexample for C8 as stated: the declining consent option is a
valid (non-empty, required-satisfying) answer to the last catalog
question, yet submitting it transitions the assessment to cancelled
with no completedAt, not to completed. -/
theorem C8_complete_counterexample :
    (questions.getLast?.map (fun qq => qq.id) = some "q_privacy_consent") ∧
    ((["I do not agree"].isEmpty ||
      ((["I do not agree"].length == 1) && trimSpace (["I do not agree"].headD "") == "")) = false) ∧
    ((submitAnswer wStPriv "u1" "q_privacy_consent" ["I do not agree"] 9).1.2.1).map
      (fun x => x.status) = some "cancelled" ∧
    ((submitAnswer wStPriv "u1" "q_privacy_consent" ["I do not agree"] 9).1.2.1).map
      (fun x => x.completedAt) = some none := by
  refine ⟨by decide, by decide, by decide, by decide⟩

/-- Counterexample for C2 as stated: for a user whose latest (and only)
assessment is Completed, StartOrContinueAssessment does NOT return
(nil question, the terminal assessment, nil): it creates a brand-new
in_progress assessment and returns the first question. -/
theorem C2_terminal_counterexample :
    (getUserAssessmentByUserID wStDone "u2" "" = some wAssessDone ∧
     wAssessDone.status = "completed") ∧
    (startOrContinueAssessment wStDone "u2" 10).1.1 ≠ none ∧
    ((startOrContinueAssessment wStDone "u2" 10).1.2.1).map (fun x => x.status) =
      some "in_progress" ∧
    (startOrContinueAssessment wStDone "u2" 10).2.nextAssessmentID = 3 := by
  refine ⟨⟨by decide, by decide⟩, by decide, by decide, by decide⟩

/-- C2 as amended: for a user whose latest assessment is terminal (and
who therefore has no in_progress assessment), StartOrContinueAssessment
creates a fresh in_progress assessment positioned at the first catalog
question, persists it under a fresh id, returns that first question
with no error, and leaves every previously stored assessment - in
particular the terminal one, its answers and its currentQuestionID -
untouched. -/
theorem C2_terminal_restart (st : RepoState) (u : String) (now : Nat) (aT : UserAssessment)
    (hu : u ≠ "")
    (hnone : getUserAssessmentByUserID st u "in_progress" = none)
    (_hlatest : getUserAssessmentByUserID st u "" = some aT)
    (_hterm : aT.status = "completed" ∨ aT.status = "cancelled")
    (hfresh : alistGet st.userAssessments st.nextAssessmentID = none) :
    ((startOrContinueAssessment st u now).1.1 = questions.head?) ∧
    ((startOrContinueAssessment st u now).1.2.1 =
      some { id := st.nextAssessmentID, userID := u, answers := [],
             status := "in_progress", currentQuestionID := "q_welcome",
             startedAt := now, completedAt := none, createdAt := now, updatedAt := now }) ∧
    ((startOrContinueAssessment st u now).1.2.2 = none) ∧
    ((startOrContinueAssessment st u now).2.nextAssessmentID = st.nextAssessmentID + 1) ∧
    (∀ k b, alistGet st.userAssessments k = some b →
      alistGet (startOrContinueAssessment st u now).2.userAssessments k = some b) := by
  have hu2 : (u == "") = false := by simpa using hu
  have hip : (("in_progress" : String) == "") = false := by decide
  have hcreate : createUserAssessment st
      { emptyAssessment with userID := u, status := "in_progress", startedAt := now, answers := [] } now =
      Except.ok
        ({ id := st.nextAssessmentID, userID := u, answers := [], status := "in_progress",
           currentQuestionID := "", startedAt := now, completedAt := none,
           createdAt := now, updatedAt := now },
         { st with
           userAssessments := alistPut st.userAssessments st.nextAssessmentID
             { id := st.nextAssessmentID, userID := u, answers := [], status := "in_progress",
               currentQuestionID := "", startedAt := now, completedAt := none,
               createdAt := now, updatedAt := now }
           userIndex := indexPut st.userIndex u
             ((indexGet st.userIndex u).getD [] ++ [st.nextAssessmentID])
           nextAssessmentID := st.nextAssessmentID + 1 }) := by
    unfold createUserAssessment emptyAssessment
    dsimp only
    rw [hu2]
    simp only [Bool.false_eq_true, if_false, hip, ite_self]
  have h1 : startOrContinueAssessment st u now =
      socMain
        { st with
          userAssessments := alistPut st.userAssessments st.nextAssessmentID
            { id := st.nextAssessmentID, userID := u, answers := [], status := "in_progress",
              currentQuestionID := "", startedAt := now, completedAt := none,
              createdAt := now, updatedAt := now }
          userIndex := indexPut st.userIndex u
            ((indexGet st.userIndex u).getD [] ++ [st.nextAssessmentID])
          nextAssessmentID := st.nextAssessmentID + 1 }
        { id := st.nextAssessmentID, userID := u, answers := [], status := "in_progress",
          currentQuestionID := "", startedAt := now, completedAt := none,
          createdAt := now, updatedAt := now } now := by
    unfold startOrContinueAssessment
    simp only [hnone, hcreate]
  have h3 : socMain
      { st with
        userAssessments := alistPut st.userAssessments st.nextAssessmentID
          { id := st.nextAssessmentID, userID := u, answers := [], status := "in_progress",
            currentQuestionID := "", startedAt := now, completedAt := none,
            createdAt := now, updatedAt := now }
        userIndex := indexPut st.userIndex u
          ((indexGet st.userIndex u).getD [] ++ [st.nextAssessmentID])
        nextAssessmentID := st.nextAssessmentID + 1 }
      { id := st.nextAssessmentID, userID := u, answers := [], status := "in_progress",
        currentQuestionID := "", startedAt := now, completedAt := none,
        createdAt := now, updatedAt := now } now =
      ((some qWelcomeDef,
        some { id := st.nextAssessmentID, userID := u, answers := [],
               status := "in_progress", currentQuestionID := "q_welcome",
               startedAt := now, completedAt := none, createdAt := now, updatedAt := now },
        none),
       { st with
         userAssessments := alistPut
           (alistPut st.userAssessments st.nextAssessmentID
             { id := st.nextAssessmentID, userID := u, answers := [], status := "in_progress",
               currentQuestionID := "", startedAt := now, completedAt := none,
               createdAt := now, updatedAt := now })
           st.nextAssessmentID
           { id := st.nextAssessmentID, userID := u, answers := [],
             status := "in_progress", currentQuestionID := "q_welcome",
             startedAt := now, completedAt := none, createdAt := now, updatedAt := now }
         userIndex := indexPut st.userIndex u
           ((indexGet st.userIndex u).getD [] ++ [st.nextAssessmentID])
         nextAssessmentID := st.nextAssessmentID + 1 }) := by
    have hgetC : alistGet
        (alistPut st.userAssessments st.nextAssessmentID
          { id := st.nextAssessmentID, userID := u, answers := [], status := "in_progress",
            currentQuestionID := "", startedAt := now, completedAt := none,
            createdAt := now, updatedAt := now })
        st.nextAssessmentID =
        some { id := st.nextAssessmentID, userID := u, answers := [], status := "in_progress",
               currentQuestionID := "", startedAt := now, completedAt := none,
               createdAt := now, updatedAt := now } := alistGet_put_same _ _ _
    have hb2 : (("" : String) == "") = true := by decide
    have hb3 : (("in_progress" : String) == "completed") = false := by decide
    have hb4 : (("in_progress" : String) == "cancelled") = false := by decide
    unfold socMain socFinish questions getDefaultAssessmentQuestions
    dsimp only
    simp only [hb2, hb3, hb4, Bool.false_or, Bool.or_self, Bool.false_eq_true, if_false, if_true]
    unfold updateUserAssessment
    dsimp only
    rw [hgetC]
    dsimp only
    simp only [hb3, hb4, Bool.false_or, Bool.false_eq_true, if_false]
    rfl
  rw [h1, h3]
  refine ⟨rfl, rfl, rfl, rfl, ?_⟩
  intro k b hb
  have hkne : k ≠ st.nextAssessmentID := by
    intro hc
    rw [hc, hfresh] at hb
    cases hb
  rw [alistGet_put_other _ _ _ _ hkne, alistGet_put_other _ _ _ _ hkne]
  exact hb

/-- Witness for C2 at a concrete store whose only assessment for the
user is completed. -/
theorem C2_terminal_restart_witness :
    ((startOrContinueAssessment wStDone "u2" 10).1.1 = questions.head?) ∧
    ((startOrContinueAssessment wStDone "u2" 10).2.nextAssessmentID = 3) ∧
    (alistGet (startOrContinueAssessment wStDone "u2" 10).2.userAssessments 1 =
      some wAssessDone) := by
  have h := C2_terminal_restart wStDone "u2" 10 wAssessDone (by decide) (by decide)
    (by decide) (Or.inl (by decide)) (by decide)
  exact ⟨h.1, h.2.2.2.1, h.2.2.2.2 1 wAssessDone (by decide)⟩

end Aphrodite
